import Mathlib

/-!
Verification of the thai-doc-insight front end.

The repository contains two coexisting UI variants:

* variant A (the `Index` page using the `/api/...` JSON endpoints):
  `handleFileSelect`, `uploadFile`, `extractText`, `analyzeText`,
  `downloadResults`, `resetProcess`;
* variant B (the `FileUpload` / `ProcessingStatus` / `ResultsReview`
  components using form-POST style endpoints `/`, `/extract`, `/analyze`,
  `/download/{fmt}`).

Both variants are embedded below.  Stateful React components are modelled
as explicit state records with pure transition functions; a `fetch` call is
modelled by recording the request that would be issued and by taking the
response (or the failure mode) as an explicit argument.  Dynamic JSON
objects (needed because variant A spreads a whole response object into a
page record) are modelled as association lists from field names to JSON
values.
-/

namespace ThaiDocInsight

/-- A JSON value, as far as this front end inspects one. -/
inductive JVal where
  | str (s : String)
  | num (n : Int)
  | boolean (b : Bool)
  | null
deriving DecidableEq, Repr

/-- A JavaScript object: an ordered association list of named fields. -/
abbrev JsObj := List (String × JVal)

/-- Field lookup in a JavaScript object (first binding wins, as in JS). -/
def jLookup (o : JsObj) (k : String) : Option JVal :=
  (o.find? (fun kv => kv.1 = k)).map (fun kv => kv.2)

/-- JavaScript object spread `{...page, ...data}`: fields of `page` in
order, with values overridden by `data` where present, followed by the
fields of `data` that are new. -/
def jsSpread (page data : JsObj) : JsObj :=
  page.map (fun kv => (kv.1, (jLookup data kv.1).getD kv.2)) ++
    data.filter (fun kv => (jLookup page kv.1).isNone)

theorem jLookup_nil (k : String) : jLookup [] k = none := rfl

theorem jLookup_cons (k0 : String) (v0 : JVal) (t : JsObj) (k : String) :
    jLookup ((k0, v0) :: t) k = if k0 = k then some v0 else jLookup t k := by
  by_cases h : k0 = k <;> simp [jLookup, List.find?_cons, h]

theorem jLookup_append (a b : JsObj) (k : String) :
    jLookup (a ++ b) k = (jLookup a k).rec (jLookup b k) (fun v => some v) := by
  induction a with
  | nil => simp [jLookup_nil]
  | cons kv t ih =>
      obtain ⟨k0, v0⟩ := kv
      by_cases h : k0 = k <;>
        simp [jLookup_cons, h, ih]

theorem jLookup_map_override (page data : JsObj) (k : String) :
    jLookup (page.map (fun kv => (kv.1, (jLookup data kv.1).getD kv.2))) k =
      (jLookup page k).map (fun w => (jLookup data k).getD w) := by
  induction page with
  | nil => simp [jLookup_nil]
  | cons kv t ih =>
      obtain ⟨k0, v0⟩ := kv
      by_cases h : k0 = k
      · subst h
        simp [jLookup_cons]
      · simp [jLookup_cons, h, ih]

theorem jLookup_filter_fresh (page data : JsObj) (k : String)
    (h : jLookup page k = none) :
    jLookup (data.filter (fun kv => (jLookup page kv.1).isNone)) k =
      jLookup data k := by
  induction data with
  | nil => simp
  | cons kv t ih =>
      obtain ⟨k0, v0⟩ := kv
      by_cases hk : k0 = k
      · subst hk
        simp [List.filter_cons, h, jLookup_cons]
      · by_cases hkeep : (jLookup page k0).isNone <;>
          simp [List.filter_cons, hkeep, jLookup_cons, hk, ih]

/-- Every field present in the spread-in object wins in `{...page, ...data}`. -/
theorem jsSpread_lookup_of_mem (page data : JsObj) (k : String) (v : JVal)
    (h : jLookup data k = some v) :
    jLookup (jsSpread page data) k = some v := by
  unfold jsSpread
  rw [jLookup_append, jLookup_map_override]
  cases hp : jLookup page k with
  | some w => simp [h]
  | none => simp [jLookup_filter_fresh page data k hp, h]

/-- Fields absent from the spread-in object are preserved by
`{...page, ...data}`. -/
theorem jsSpread_lookup_of_none (page data : JsObj) (k : String)
    (h : jLookup data k = none) :
    jLookup (jsSpread page data) k = jLookup page k := by
  unfold jsSpread
  rw [jLookup_append, jLookup_map_override]
  cases hp : jLookup page k with
  | some w => simp [h]
  | none => simp [jLookup_filter_fresh page data k hp, h]

/-! ## String helpers used by the code

`lowerStr` models `String.prototype.toLowerCase` (restricted to the
character-wise lowering Lean provides), `endsWithB` models
`String.prototype.endsWith`, `hasSubB` models `String.prototype.includes`,
and `replaceFirstDrop` models `s.replace(pat, "")` with a string pattern,
which in JavaScript removes only the first occurrence. -/

/-- Character-wise lower casing of a string. -/
def lowerStr (s : String) : String :=
  String.mk (s.data.map Char.toLower)

/-- `endsWithB suffix s` is true when `s` ends with `suffix`. -/
def endsWithB (suffixStr s : String) : Bool :=
  suffixStr.data.isSuffixOf s.data

/-- Substring test on character lists. -/
def hasSubB (pat : List Char) : List Char → Bool
  | [] => pat.isEmpty
  | c :: t => pat.isPrefixOf (c :: t) || hasSubB pat t

/-- `jsIncludes s sub` models `s.includes(sub)` in JavaScript. -/
def jsIncludes (s sub : String) : Bool :=
  hasSubB sub.data s.data

/-- Remove the first occurrence of `pat` from a character list; the
recursion mirrors how `String.prototype.replace` with a string pattern
rewrites only the leftmost match. -/
def replaceFirstDrop (pat : List Char) : List Char → List Char
  | [] => []
  | c :: t =>
      if pat.isPrefixOf (c :: t) then (c :: t).drop pat.length
      else c :: replaceFirstDrop pat t

/-- `jsReplaceFirst pat s` models `s.replace(pat, "")`. -/
def jsReplaceFirst (pat s : String) : String :=
  String.mk (replaceFirstDrop pat.data s.data)

/-- Modelled from the spec: the basename of a filename is the filename
with its extension (the final dot and everything after it) removed; a
name without a dot is its own basename.  This definition follows the
words of the spec and is compared against what the code computes. -/
def specBasename (f : String) : String :=
  match (f.data.reverse).dropWhile (fun c => c != '.') with
  | [] => f
  | _ :: rest => String.mk rest.reverse

/-! ## Files, requests and the accepted formats -/

/-- The client-side view of a selected `File`: its name, its MIME type
(`File.type`) and its size in bytes. -/
structure FileInfo where
  name : String
  mimeType : String
  size : Nat
deriving DecidableEq, Repr

/-- A network request the front end would issue. -/
structure Request where
  method : String
  path : String
deriving DecidableEq, Repr

/-- The upload size cap: 50MB. -/
def sizeCap : Nat := 50 * 1024 * 1024

/-- The accepted file extensions of the PDF/image set, as listed by the
repository README (Supported Formats: PDF, JPG, JPEG, PNG, BMP, TIFF,
TIF). -/
def acceptedExtensions : List String :=
  ["pdf", "jpg", "jpeg", "png", "bmp", "tiff", "tif"]

/-- The standard MIME types of the accepted image formats. -/
def acceptedImageMimes : List String :=
  ["image/jpeg", "image/png", "image/bmp", "image/tiff"]

/-- A MIME string designates PDF when it mentions `pdf` (this covers
`application/pdf` and legacy forms such as `application/x-pdf`); this is
also exactly the test `file.type.includes('pdf')` performed by the
`FileUpload` component. -/
def mimeIsPdf (f : FileInfo) : Bool :=
  jsIncludes f.mimeType "pdf"

/-- A file is outside the accepted PDF/image set, judged by extension:
its (lower-cased) name ends with `.e` for no accepted extension `e`. -/
def extOutsideAcceptedSet (f : FileInfo) : Prop :=
  ∀ e ∈ acceptedExtensions, endsWithB ("." ++ e) (lowerStr f.name) = false

/-- A file is outside the accepted PDF/image set, judged by MIME type:
its type neither designates PDF nor is an accepted image MIME type. -/
def mimeOutsideAcceptedSet (f : FileInfo) : Prop :=
  mimeIsPdf f = false ∧ f.mimeType ∉ acceptedImageMimes

instance (f : FileInfo) : Decidable (extOutsideAcceptedSet f) := by
  unfold extOutsideAcceptedSet
  exact List.decidableBAll _ _

instance (f : FileInfo) : Decidable (mimeOutsideAcceptedSet f) := by
  unfold mimeOutsideAcceptedSet
  exact instDecidableAnd

/-! ## The page data model (interface `PageData` of the components) -/

/-- One extracted page, exactly the `PageData` interface: `null` fields
are `Option.none`. -/
structure PageData where
  page_number : Nat
  analyze_contents : String
  optimized_details : Option String
  is_important : Option Bool
deriving DecidableEq, Repr

/-! ## The `ResultsReview` component -/

/-- The local state of `ResultsReview`: the page records, the list of
page numbers currently marked analyzing, the page being edited (if any)
and the edit buffer. -/
structure ReviewState where
  pages : List PageData
  analyzing : List Nat
  editingPage : Option Nat
  editContent : String
deriving DecidableEq, Repr

/-- The analyze endpoint response body on HTTP success, per the backend
contract used by the component. -/
structure AnalysisResult where
  optimized_details : String
  is_important : Bool
deriving DecidableEq, Repr

/-- How a fetch of `/analyze` can end: an HTTP-ok response carrying a
result, a non-ok HTTP response, or a thrown network error. -/
inductive FetchOutcome where
  | success (res : AnalysisResult)
  | httpError
  | netError
deriving DecidableEq, Repr

/-- `analyzeContent` of `ResultsReview`, run to completion on one
outcome (no interleaving): the page number is first appended to
`analyzing`; on an ok response exactly `optimized_details` and
`is_important` of the matching records are set from the result; on a
non-ok response or a thrown fetch nothing is merged; the `finally`
block removes every occurrence of the page number from `analyzing`. -/
def analyzeContent (st : ReviewState) (n : Nat) (outcome : FetchOutcome) :
    ReviewState :=
  let started := st.analyzing ++ [n]
  match outcome with
  | .success res =>
      { st with
        pages := st.pages.map (fun p =>
          if p.page_number = n then
            { p with
              optimized_details := some res.optimized_details,
              is_important := some res.is_important }
          else p),
        analyzing := started.filter (fun m => m != n) }
  | .httpError => { st with analyzing := started.filter (fun m => m != n) }
  | .netError => { st with analyzing := started.filter (fun m => m != n) }

/-- The request issued by `analyzeContent`. -/
def analyzeRequest : Request := ⟨"POST", "/analyze"⟩

/-- `saveEdit`: when a page is in edit mode, commit the buffer as its new
`analyze_contents`, reset `optimized_details` and `is_important` to
`null`, leave edit mode, and return the analysis call that is then
triggered for the edited page (the state commit happens before that
call is issued, hence before it can resolve).  With no page in edit
mode the function returns early. -/
def saveEdit (st : ReviewState) : ReviewState × List (Nat × String) :=
  match st.editingPage with
  | none => (st, [])
  | some n =>
      ({ st with
          pages := st.pages.map (fun p =>
            if p.page_number = n then
              { p with
                analyze_contents := st.editContent,
                optimized_details := none,
                is_important := none }
            else p),
          editingPage := none,
          editContent := "" },
        [(n, st.editContent)])

/-- `cancelEdit`: leave edit mode and clear the buffer; pages untouched. -/
def cancelEdit (st : ReviewState) : ReviewState :=
  { st with editingPage := none, editContent := "" }

/-- `startEditing`: enter edit mode for a page, seeding the buffer with
its current text. -/
def startEditing (st : ReviewState) (p : PageData) : ReviewState :=
  { st with editingPage := some p.page_number, editContent := p.analyze_contents }

/-! ### The analyze-all batch -/

/-- Events of the `analyzeAllPages` batch, in the order the event loop
sees them: an analysis call starting, that call completing (its awaited
promise resolving), and the fixed 500ms inter-call delay elapsing. -/
inductive BatchEv where
  | callStart (n : Nat)
  | callEnd (n : Nat)
  | delayMs
deriving DecidableEq, Repr

/-- The loop body of `analyzeAllPages`: for each page of the (already
filtered) list, await the analysis call, then await the fixed delay. -/
def batchGo : List PageData → List BatchEv
  | [] => []
  | p :: rest =>
      .callStart p.page_number :: .callEnd p.page_number :: .delayMs :: batchGo rest

/-- The event trace of `analyzeAllPages` on a page collection: it first
filters the pages lacking `optimized_details`, then runs the sequential
loop. -/
def analyzeAllTrace (pages : List PageData) : List BatchEv :=
  batchGo (pages.filter (fun p => p.optimized_details.isNone))

/-- The page numbers whose calls start, in trace order. -/
def startsOf (t : List BatchEv) : List Nat :=
  t.filterMap (fun e =>
    match e with
    | .callStart n => some n
    | _ => none)

/-- Is the event a call start? -/
def isCallStart : BatchEv → Bool
  | .callStart _ => true
  | _ => false

/-- Is the event a call completion? -/
def isCallEnd : BatchEv → Bool
  | .callEnd _ => true
  | _ => false

/-- Number of analysis calls in flight after a list of events. -/
def inFlight (t : List BatchEv) : Int :=
  (t.countP isCallStart : Int) - (t.countP isCallEnd : Int)

/-- A trace is strictly sequential: it is a concatenation of chunks
`callStart n, callEnd n, delayMs` — every call completes and the fixed
delay elapses before the next call starts. -/
inductive SeqChunks : List BatchEv → Prop
  | nil : SeqChunks []
  | chunk (n : Nat) (rest : List BatchEv) (h : SeqChunks rest) :
      SeqChunks (.callStart n :: .callEnd n :: .delayMs :: rest)

/-! ### Derived render values of `ResultsReview` -/

/-- A JavaScript number as this component can produce one: a finite
value, positive infinity, or NaN. -/
inductive JNum where
  | num (q : ℚ)
  | posInf
  | nan
deriving DecidableEq, Repr

/-- JavaScript division of nonnegative operands: division by zero gives
NaN when the numerator is zero as well, and +Infinity otherwise. -/
def jsDiv (a b : ℚ) : JNum :=
  if b = 0 then (if a = 0 then .nan else .posInf) else .num (a / b)

/-- Multiplication of such a number by a positive constant. -/
def jsMulPos (x : JNum) (c : ℚ) : JNum :=
  match x with
  | .num q => .num (q * c)
  | .posInf => .posInf
  | .nan => .nan

/-- `analyzedCount` of the effect hook: pages whose `optimized_details`
is not null. -/
def analyzedCount (pages : List PageData) : Nat :=
  (pages.filter (fun p => p.optimized_details.isSome)).length

/-- `allAnalyzed` as the effect hook computes it. -/
def allAnalyzedOf (pages : List PageData) : Bool :=
  analyzedCount pages == pages.length

/-- `analysisProgress` as the effect hook computes it:
`(analyzedCount / pages.length) * 100`, with no emptiness guard. -/
def analysisProgressOf (pages : List PageData) : JNum :=
  jsMulPos (jsDiv (analyzedCount pages) pages.length) 100

/-- The `disabled` prop of the three download buttons: `!allAnalyzed`. -/
def downloadDisabledOf (pages : List PageData) : Bool :=
  ! allAnalyzedOf pages

/-- The page cards rendered by `ResultsReview`: one card per record of
`pages`, keyed by page number, in list order. -/
def renderCards (pages : List PageData) : List Nat :=
  pages.map (fun p => p.page_number)

/-! ### Downloads -/

/-- The request issued by `downloadResults` of `ResultsReview`. -/
def downloadRequestB (fmt : String) : Request :=
  ⟨"GET", "/download/" ++ fmt⟩

/-- The request issued by `downloadResults` of the `Index` page. -/
def downloadRequestA (fmt : String) : Request :=
  ⟨"GET", "/api/download/" ++ fmt⟩

/-- The file name offered to the user by both `downloadResults`
implementations: `filename.replace('.pdf', '') + '.' + format`. -/
def downloadName (filename fmt : String) : String :=
  jsReplaceFirst ".pdf" filename ++ "." ++ fmt

/-- `downloadResults` of `ResultsReview`, given whether the response was
ok: the GET request is always issued; a file name is offered exactly on
an ok response. -/
def downloadRun (filename fmt : String) (ok : Bool) :
    List Request × Option String :=
  ([downloadRequestB fmt], if ok then some (downloadName filename fmt) else none)

/-! ## Variant A: the `Index` page over the `/api/...` endpoints -/

/-- The stage enum of the `Index` page. -/
inductive StepA where
  | upload
  | extract
  | review
deriving DecidableEq, Repr

/-- The controller state of the `Index` page. -/
structure IndexState where
  file : Option FileInfo
  isUploading : Bool
  isExtracting : Bool
  isAnalyzing : Bool
  uploadedFilename : String
  pagesData : List JsObj
  error : String
  currentStep : StepA
deriving DecidableEq, Repr

/-- `handleFileSelect`: reject a name not ending (case-insensitively) in
`.pdf`, then reject a size above 50MB, otherwise store the file and
clear the error.  The function performs no fetch; the returned request
list is what it issues on the network, always empty. -/
def handleFileSelect (f : FileInfo) (s : IndexState) :
    IndexState × List Request :=
  if ! endsWithB ".pdf" (lowerStr f.name) then
    ({ s with error := "Please select a PDF file only" }, [])
  else if f.size > sizeCap then
    ({ s with error := "File size must be less than 50MB" }, [])
  else
    ({ s with file := some f, error := "" }, [])

/-- The `/api/upload` response as `uploadFile` inspects it: the HTTP ok
flag, the parsed body success flag, the reported filename and the
optional error field. -/
structure UploadRespA where
  ok : Bool
  success : Bool
  filename : String
  error : Option String
deriving DecidableEq, Repr

/-- The body error of a response, defaulted as `data.error || fallback`. -/
def errOrDefault (e : Option String) (fallback : String) : String :=
  match e with
  | some s => if s = "" then fallback else s
  | none => fallback

/-- `uploadFile` run to completion on a response: with no file selected
it returns early and issues nothing; otherwise it POSTs to
`/api/upload` and, on `response.ok && data.success`, stores the
server-reported filename and moves to the extract step, else it
surfaces the body error and stays. -/
def uploadFile (s : IndexState) (r : UploadRespA) : IndexState × List Request :=
  match s.file with
  | none => (s, [])
  | some _ =>
      if r.ok && r.success then
        ({ s with
            uploadedFilename := r.filename,
            currentStep := .extract,
            error := "",
            isUploading := false },
          [⟨"POST", "/api/upload"⟩])
      else
        ({ s with
            error := errOrDefault r.error "Upload failed",
            isUploading := false },
          [⟨"POST", "/api/upload"⟩])

/-- The `/api/extract` response as `extractText` inspects it. -/
structure ExtractRespA where
  ok : Bool
  success : Bool
  pages_data : List JsObj
  total_pages : Int
  error : Option String
deriving DecidableEq, Repr

/-- `extractText` run to completion on a response: GET `/api/extract`;
on `response.ok && data.success` store `pages_data` and move to the
review step, else surface the body error. -/
def extractText (s : IndexState) (r : ExtractRespA) : IndexState × List Request :=
  if r.ok && r.success then
    ({ s with
        pagesData := r.pages_data,
        currentStep := .review,
        error := "",
        isExtracting := false },
      [⟨"GET", "/api/extract"⟩])
  else
    ({ s with
        error := errOrDefault r.error "Extraction failed",
        isExtracting := false },
      [⟨"GET", "/api/extract"⟩])

/-- The `/api/analyze` response as `analyzeText` inspects it: the HTTP
ok flag and the parsed body, an arbitrary JSON object. -/
structure AnalyzeRespA where
  ok : Bool
  data : JsObj
deriving DecidableEq, Repr

/-- The page update of `analyzeText` on an ok response: every record
whose `page_number` field equals the analyzed page number is replaced by
`{ ...page, ...data }`, spreading the whole response body into it. -/
def analyzeTextMerge (pages : List JsObj) (n : Int) (data : JsObj) :
    List JsObj :=
  pages.map (fun page =>
    if jLookup page "page_number" = some (.num n) then jsSpread page data
    else page)

/-- The error string `analyzeText` surfaces from a failed response. -/
def analyzeErrOf (data : JsObj) : String :=
  match jLookup data "error" with
  | some (.str s) => if s = "" then "Analysis failed" else s
  | _ => "Analysis failed"

/-- `analyzeText` run to completion on a response: POST `/api/analyze`;
on an ok response spread the body into the matching records. -/
def analyzeText (s : IndexState) (n : Int) (r : AnalyzeRespA) :
    IndexState × List Request :=
  if r.ok then
    ({ s with
        pagesData := analyzeTextMerge s.pagesData n r.data,
        error := "",
        isAnalyzing := false },
      [⟨"POST", "/api/analyze"⟩])
  else
    ({ s with
        error := analyzeErrOf r.data,
        isAnalyzing := false },
      [⟨"POST", "/api/analyze"⟩])

/-- A download response as `downloadResults` inspects it. -/
structure DownloadResp where
  ok : Bool
  error : Option String
deriving DecidableEq, Repr

/-- `downloadResults` of the `Index` page: GET `/api/download/{fmt}`;
an ok response only triggers the client-side save (no state change), a
failed one surfaces the body error. -/
def downloadResultsA (s : IndexState) (fmt : String) (r : DownloadResp) :
    IndexState × List Request :=
  if r.ok then (s, [downloadRequestA fmt])
  else ({ s with error := errOrDefault r.error "Download failed" },
    [downloadRequestA fmt])

/-- `resetProcess`: clear the file, the uploaded filename, the page data
and the error, and return to the upload step. -/
def resetProcess (s : IndexState) : IndexState :=
  { s with
      file := none,
      uploadedFilename := "",
      pagesData := [],
      error := "",
      currentStep := .upload }

/-- The page cards rendered by the `Index` review view: guarded by
`pagesData.length > 0`, one card per record keyed by its `page_number`
field, in list order. -/
def renderCardsA (pages : List JsObj) : List (Option JVal) :=
  if pages.length > 0 then pages.map (fun o => jLookup o "page_number")
  else []

/-- The user events of the `Index` page, each carrying the response its
handler awaits.  A handler can only fire while its view is rendered:
the upload card needs `currentStep = upload`, the extract card
`currentStep = extract`, and the download and start-over buttons
`currentStep = review` (`analyzeText` is not reachable from any
rendered element of this page and so has no event). -/
inductive EvA where
  | selectFile (f : FileInfo)
  | uploadClick (r : UploadRespA)
  | extractClick (r : ExtractRespA)
  | downloadClick (fmt : String) (r : DownloadResp)
  | resetClick
deriving DecidableEq, Repr

/-- One controller step of the `Index` page: the event handler runs if
its view is currently rendered, otherwise the state is unchanged. -/
def stepA (s : IndexState) (e : EvA) : IndexState :=
  match e with
  | .selectFile f =>
      if s.currentStep = .upload then (handleFileSelect f s).1 else s
  | .uploadClick r =>
      if s.currentStep = .upload then (uploadFile s r).1 else s
  | .extractClick r =>
      if s.currentStep = .extract then (extractText s r).1 else s
  | .downloadClick fmt r =>
      if s.currentStep = .review then (downloadResultsA s fmt r).1 else s
  | .resetClick =>
      if s.currentStep = .review then resetProcess s else s

/-- Position of a stage along the forward chain. -/
def ordA : StepA → Nat
  | .upload => 0
  | .extract => 1
  | .review => 2

/-! ## Variant B: the `FileUpload` component over the form-POST backend -/

/-- The `/` upload response as `handleFile` inspects it: the component
reads only `response.redirected`; the HTTP ok flag and the JSON body
(success flag and server-side filename) are carried here to show they
are ignored. -/
structure UploadRespB where
  ok : Bool
  redirected : Bool
  bodySuccess : Bool
  bodyFilename : String
deriving DecidableEq, Repr

/-- What one `handleFile` run produces: the error shown (if any), the
filename emitted through `onFileUploaded` (if any), and the requests
issued. -/
structure UploadOutcomeB where
  error : Option String
  uploadedFilename : Option String
  requests : List Request
deriving DecidableEq, Repr

/-- `handleFile` of `FileUpload`, run to completion: reject a MIME type
not containing `pdf`, then a size above 50MB, both before any fetch;
otherwise POST the form to `/` and, when the response was redirected,
emit the locally selected file name; a non-redirected response (or a
thrown fetch) surfaces a retry message. -/
def handleFile (f : FileInfo) (r : UploadRespB) : UploadOutcomeB :=
  if ! jsIncludes f.mimeType "pdf" then
    ⟨some "Please upload a PDF file only.", none, []⟩
  else if f.size > sizeCap then
    ⟨some "File size must be less than 50MB.", none, []⟩
  else if r.redirected then
    ⟨none, some f.name, [⟨"POST", "/"⟩]⟩
  else
    ⟨some "Upload failed. Please try again.", none, [⟨"POST", "/"⟩]⟩

/-! ## Variant B: the top-level controller of the component flow -/

/-- The stage enum of the variant B controller (`AppState`). -/
inductive StepB where
  | upload
  | processing
  | review
deriving DecidableEq, Repr

/-- The variant B controller state: the current stage, the uploaded
filename and the extracted page records. -/
structure BState where
  currentState : StepB
  filename : String
  extractedData : List PageData
deriving DecidableEq, Repr

/-- Events of the variant B controller: `onFileUploaded` from the
upload view and `onComplete` from the processing view.  Each callback
is only reachable while its child view is rendered. -/
inductive EvB where
  | fileUploaded (filename : String)
  | processingComplete (data : List PageData)
deriving DecidableEq, Repr

/-- One step of the variant B controller: `handleFileUploaded` stores
the filename and moves to processing; `handleProcessingComplete`
stores the page data and moves to review. -/
def stepB (s : BState) (e : EvB) : BState :=
  match e with
  | .fileUploaded fn =>
      if s.currentState = .upload then
        { s with filename := fn, currentState := .processing }
      else s
  | .processingComplete data =>
      if s.currentState = .processing then
        { s with extractedData := data, currentState := .review }
      else s

/-- Position of a variant B stage along the forward chain. -/
def ordB : StepB → Nat
  | .upload => 0
  | .processing => 1
  | .review => 2

/-! ## Pattern constants for the download-name analysis -/

/-- The characters of the pattern `.pdf`. -/
def pdfChars : List Char := ['.', 'p', 'd', 'f']

/-- The characters `.pd`: a proper front part of the pattern, long
enough that any occurrence of `.pdf` in `b ++ pdfChars` before the
final one lies inside `b ++ pdChars`. -/
def pdChars : List Char := ['.', 'p', 'd']

/-! ## Theorems -/

/-- C9: for every single-page analyze call of `ResultsReview`, a non-ok
HTTP response or a thrown fetch leaves every page record unchanged, and
whatever the outcome, the page number is no longer marked analyzing
once the call has completed. -/
theorem C9_analyze_error_atomic :
    ∀ (st : ReviewState) (n : Nat),
      (analyzeContent st n .httpError).pages = st.pages ∧
      (analyzeContent st n .netError).pages = st.pages ∧
      ∀ outcome : FetchOutcome,
        n ∉ (analyzeContent st n outcome).analyzing := by
  intro st n
  refine ⟨rfl, rfl, ?_⟩
  intro outcome
  cases outcome <;> simp [analyzeContent, List.mem_filter]

/-- C10: on an empty page array, `ResultsReview` computes
`allAnalyzed = true`, enables the download buttons, and computes the
analysis progress as the unguarded `(0 / 0) * 100`, which is NaN. -/
theorem C10_empty_pages_unguarded :
    allAnalyzedOf [] = true ∧
    downloadDisabledOf [] = false ∧
    analysisProgressOf [] = JNum.nan := by
  refine ⟨rfl, rfl, ?_⟩
  simp [analysisProgressOf, analyzedCount, jsDiv, jsMulPos]

/-- C2: with a page in edit mode, Save commits the buffer as that page's
new `analyze_contents` and resets its `optimized_details` and
`is_important` to absent in the committed state, which is installed
before the single re-triggered analysis call (for that page only, with
the buffer text) is issued; every other record is unchanged.  Cancel
only leaves edit mode and clears the buffer. -/
theorem C2_save_cancel_edit :
    (∀ (st : ReviewState) (n : Nat), st.editingPage = some n →
      (saveEdit st).2 = [(n, st.editContent)] ∧
      (saveEdit st).1.editingPage = none ∧
      (saveEdit st).1.analyzing = st.analyzing ∧
      (saveEdit st).1.pages.length = st.pages.length ∧
      (∀ (i : Nat) (hi : i < st.pages.length)
          (hi2 : i < (saveEdit st).1.pages.length),
        (st.pages[i].page_number = n →
          (saveEdit st).1.pages[i] =
            { st.pages[i] with
                analyze_contents := st.editContent,
                optimized_details := none,
                is_important := none }) ∧
        (st.pages[i].page_number ≠ n →
          (saveEdit st).1.pages[i] = st.pages[i]))) ∧
    (∀ st : ReviewState,
      cancelEdit st = { st with editingPage := none, editContent := "" }) := by
  constructor
  · intro st n h
    refine ⟨?_, ?_, ?_, ?_, ?_⟩
    · simp [saveEdit, h]
    · simp [saveEdit, h]
    · simp [saveEdit, h]
    · simp [saveEdit, h]
    · intro i hi hi2
      constructor
      · intro hp
        simp [saveEdit, h, hp]
      · intro hp
        simp [saveEdit, h, hp]
  · intro st
    rfl

/-- Witness for C2 at a concrete state in edit mode. -/
theorem C2_save_cancel_edit_witness :
    ((⟨[⟨1, "old", some "od", some true⟩], [], some 1, "new"⟩ :
        ReviewState).editingPage = some 1) ∧
    (saveEdit ⟨[⟨1, "old", some "od", some true⟩], [], some 1, "new"⟩).2 =
      [(1, "new")] :=
  ⟨rfl, (C2_save_cancel_edit.1 ⟨[⟨1, "old", some "od", some true⟩], [],
    some 1, "new"⟩ 1 rfl).1⟩

/-- The batch loop starts exactly the calls for the listed pages, in
order. -/
theorem startsOf_batchGo (l : List PageData) :
    startsOf (batchGo l) = l.map (fun p => p.page_number) := by
  induction l with
  | nil => rfl
  | cons p rest ih => simpa [batchGo, startsOf, List.filterMap_cons] using ih

/-- The batch loop trace is a concatenation of
start-complete-delay chunks. -/
theorem seqChunks_batchGo (l : List PageData) : SeqChunks (batchGo l) := by
  induction l with
  | nil => exact .nil
  | cons p rest ih => exact .chunk p.page_number (batchGo rest) ih

/-- A strictly sequential trace never has two calls in flight. -/
theorem seqChunks_inFlight_le (t : List BatchEv) (h : SeqChunks t) :
    ∀ k : Nat, inFlight (t.take k) ≤ 1 := by
  induction h with
  | nil =>
      intro k
      simp [inFlight]
  | chunk n rest h ih =>
      intro k
      match k with
      | 0 => simp [inFlight]
      | 1 => simp [inFlight, List.countP_cons, isCallStart, isCallEnd]
      | 2 => simp [inFlight, List.countP_cons, isCallStart, isCallEnd]
      | (m + 3) =>
          have hm := ih m
          simp only [List.take_succ_cons, inFlight, List.countP_cons,
            isCallStart, isCallEnd] at hm ⊢
          omega

/-- C6: the analyze-all batch starts the single-page analysis exactly on
the pages lacking `optimized_details`, in collection order, and its
event trace is strictly sequential: each call completes and the fixed
delay elapses before the next call starts, so no two batch calls are
ever in flight at once. -/
theorem C6_analyze_all_sequential :
    ∀ pages : List PageData,
      startsOf (analyzeAllTrace pages) =
        (pages.filter (fun p => p.optimized_details.isNone)).map
          (fun p => p.page_number) ∧
      SeqChunks (analyzeAllTrace pages) ∧
      ∀ k : Nat, inFlight ((analyzeAllTrace pages).take k) ≤ 1 := by
  intro pages
  refine ⟨startsOf_batchGo _, seqChunks_batchGo _, ?_⟩
  exact seqChunks_inFlight_le _ (seqChunks_batchGo _)

/-- C1: in both upload implementations, a selected file whose
extension/MIME type is outside the accepted PDF/image set, or whose size
strictly exceeds 50MB, is rejected with a user-visible error and no
network call, and everything the controller holds beyond the error
message is unchanged. -/
theorem C1_upload_rejects_invalid :
    (∀ (f : FileInfo) (s : IndexState),
      extOutsideAcceptedSet f ∨ f.size > sizeCap →
        (handleFileSelect f s).1.error ≠ "" ∧
        (handleFileSelect f s).1.file = s.file ∧
        (handleFileSelect f s).1.currentStep = s.currentStep ∧
        (handleFileSelect f s).1.uploadedFilename = s.uploadedFilename ∧
        (handleFileSelect f s).1.pagesData = s.pagesData ∧
        (handleFileSelect f s).2 = []) ∧
    (∀ (f : FileInfo) (r : UploadRespB),
      mimeOutsideAcceptedSet f ∨ f.size > sizeCap →
        (handleFile f r).error ≠ none ∧
        (handleFile f r).uploadedFilename = none ∧
        (handleFile f r).requests = []) := by
  constructor
  · intro f s h
    by_cases hpdf : endsWithB ".pdf" (lowerStr f.name) = true
    · have hsize : f.size > sizeCap := by
        rcases h with h | h
        · exact absurd (h "pdf" (by decide)) (by simp [hpdf])
        · exact h
      refine ⟨?_, ?_, ?_, ?_, ?_, ?_⟩ <;>
        simp [handleFileSelect, hpdf, hsize]
    · have hpdf2 : endsWithB ".pdf" (lowerStr f.name) = false := by
        simpa using hpdf
      refine ⟨?_, ?_, ?_, ?_, ?_, ?_⟩ <;>
        simp [handleFileSelect, hpdf2]
  · intro f r h
    by_cases hm : jsIncludes f.mimeType "pdf" = true
    · have hsize : f.size > sizeCap := by
        rcases h with h | h
        · exact absurd h.1 (by simp [mimeIsPdf, hm])
        · exact h
      refine ⟨?_, ?_, ?_⟩ <;> simp [handleFile, hm, hsize]
    · have hm2 : jsIncludes f.mimeType "pdf" = false := by simpa using hm
      refine ⟨?_, ?_, ?_⟩ <;> simp [handleFile, hm2]

/-- Witness for C1: a plain-text file is rejected by both variants with
an error, no request, and no state change. -/
theorem C1_upload_rejects_invalid_witness :
    ((extOutsideAcceptedSet ⟨"notes.txt", "text/plain", 10⟩ ∨
        (10 : Nat) > sizeCap) ∧
      (handleFileSelect ⟨"notes.txt", "text/plain", 10⟩
          ⟨none, false, false, false, "", [], "", .upload⟩).2 = []) ∧
    ((mimeOutsideAcceptedSet ⟨"notes.txt", "text/plain", 10⟩ ∨
        (10 : Nat) > sizeCap) ∧
      (handleFile ⟨"notes.txt", "text/plain", 10⟩
          ⟨true, true, true, "x"⟩).requests = []) :=
  ⟨⟨Or.inl (by decide),
      (C1_upload_rejects_invalid.1 ⟨"notes.txt", "text/plain", 10⟩
        ⟨none, false, false, false, "", [], "", .upload⟩
        (Or.inl (by decide))).2.2.2.2.2⟩,
    ⟨Or.inl (by decide),
      (C1_upload_rejects_invalid.2 ⟨"notes.txt", "text/plain", 10⟩
        ⟨true, true, true, "x"⟩ (Or.inl (by decide))).2.2⟩⟩

/-- C5 counterexample: in the `FileUpload` variant, a redirected 2xx
response whose JSON body carries `success = true` and
`filename = "server.pdf"` makes the stage move forward, but the
displayed filename is the locally selected file name, not the
server-reported one. -/
theorem C5_counterexample_local_filename :
    (handleFile ⟨"local.pdf", "application/pdf", 1000⟩
        ⟨true, true, true, "server.pdf"⟩).uploadedFilename =
      some "local.pdf" ∧
    (handleFile ⟨"local.pdf", "application/pdf", 1000⟩
        ⟨true, true, true, "server.pdf"⟩).uploadedFilename ≠
      some "server.pdf" := by
  refine ⟨by decide, by decide⟩

/-- C5 amended: in the `/api/upload` variant, a 2xx response with a
body success flag stores the server-reported filename and moves to the
extract stage; in the form-POST `FileUpload` variant, forward progress
is signalled by `response.redirected` and the filename handed to the
controller is the locally selected file name. -/
theorem C5_upload_success_transition :
    (∀ (s : IndexState) (r : UploadRespA),
      s.file.isSome = true → r.ok = true → r.success = true →
        (uploadFile s r).1.uploadedFilename = r.filename ∧
        (uploadFile s r).1.currentStep = .extract) ∧
    (∀ (f : FileInfo) (r : UploadRespB),
      jsIncludes f.mimeType "pdf" = true → f.size ≤ sizeCap →
      r.redirected = true →
        (handleFile f r).uploadedFilename = some f.name ∧
        (handleFile f r).error = none) := by
  constructor
  · intro s r hf hok hsuc
    cases hfile : s.file with
    | none => simp [hfile] at hf
    | some f => constructor <;> simp [uploadFile, hfile, hok, hsuc]
  · intro f r hm hsize hredir
    have hgt : ¬ f.size > sizeCap := by omega
    constructor <;> simp [handleFile, hm, hgt, hredir]

/-- Witness for C5 at concrete inputs for both variants. -/
theorem C5_upload_success_transition_witness :
    ((some ⟨"doc.pdf", "application/pdf", 5⟩ : Option FileInfo).isSome =
        true ∧
      (uploadFile
          ⟨some ⟨"doc.pdf", "application/pdf", 5⟩, false, false, false,
            "", [], "", .upload⟩
          ⟨true, true, "f.pdf", none⟩).1.uploadedFilename = "f.pdf" ∧
      (uploadFile
          ⟨some ⟨"doc.pdf", "application/pdf", 5⟩, false, false, false,
            "", [], "", .upload⟩
          ⟨true, true, "f.pdf", none⟩).1.currentStep = .extract) ∧
    (handleFile ⟨"doc.pdf", "application/pdf", 5⟩
        ⟨true, true, true, "f.pdf"⟩).uploadedFilename = some "doc.pdf" :=
  ⟨⟨rfl,
      C5_upload_success_transition.1
        ⟨some ⟨"doc.pdf", "application/pdf", 5⟩, false, false, false,
          "", [], "", .upload⟩
        ⟨true, true, "f.pdf", none⟩ rfl rfl rfl⟩,
    (C5_upload_success_transition.2 ⟨"doc.pdf", "application/pdf", 5⟩
      ⟨true, true, true, "f.pdf"⟩ (by decide) (by decide) rfl).1⟩

/-- C4 counterexample: an extract response whose `pages_data` lists page
2 before page 1 is rendered as two cards in that response order, which
is not ascending by page number. -/
theorem C4_counterexample_unsorted_cards :
    renderCards [⟨2, "b", none, none⟩, ⟨1, "a", none, none⟩] = [2, 1] ∧
    ¬ List.Sorted (· ≤ ·)
        (renderCards [⟨2, "b", none, none⟩, ⟨1, "a", none, none⟩]) := by
  constructor
  · rfl
  · simp [renderCards, List.Sorted]

/-- C4 amended: the review stage renders exactly one card per record of
`pages_data`, in the order of the response array (no sorting is
applied); the cards are ascending by page number exactly when the
response already is. -/
theorem C4_cards_per_page :
    (∀ pages : List PageData,
      (renderCards pages).length = pages.length ∧
      renderCards pages = pages.map (fun p => p.page_number)) ∧
    (∀ pages : List JsObj,
      (renderCardsA pages).length = pages.length ∧
      (pages.length > 0 →
        renderCardsA pages = pages.map (fun o => jLookup o "page_number"))) ∧
    (∀ pages : List PageData,
      List.Sorted (· ≤ ·) (pages.map (fun p => p.page_number)) →
        List.Sorted (· ≤ ·) (renderCards pages)) := by
  refine ⟨?_, ?_, ?_⟩
  · intro pages
    exact ⟨by simp [renderCards], rfl⟩
  · intro pages
    constructor
    · cases pages <;> simp [renderCardsA]
    · intro h
      simp [renderCardsA, h]
  · intro pages h
    exact h

/-- Witness for C4 at a concrete ascending page list. -/
theorem C4_cards_per_page_witness :
    (renderCardsA [[("page_number", JVal.num 1)]]).length = 1 ∧
    List.Sorted (· ≤ ·)
      (renderCards [⟨1, "a", none, none⟩, ⟨2, "b", none, none⟩]) :=
  ⟨(C4_cards_per_page.2.1 [[("page_number", JVal.num 1)]]).1,
    C4_cards_per_page.2.2 [⟨1, "a", none, none⟩, ⟨2, "b", none, none⟩]
      (by decide)⟩

/-- C3 counterexample: in the `Index` variant, an ok `/api/analyze`
response whose body carries an extra `error` field (allowed by the
backend contract) is spread whole into the matching record, so a field
other than `optimized_details`/`is_important` is merged: the record
gains an `error` field it did not have. -/
theorem C3_counterexample_extra_field_merged :
    jLookup [("page_number", JVal.num 1), ("analyze_contents", JVal.str "t"),
        ("optimized_details", JVal.null), ("is_important", JVal.null)]
      "error" = none ∧
    analyzeTextMerge
        [[("page_number", JVal.num 1), ("analyze_contents", JVal.str "t"),
          ("optimized_details", JVal.null), ("is_important", JVal.null)]]
        1
        [("optimized_details", JVal.str "S"),
          ("is_important", JVal.boolean true), ("error", JVal.str "E")] =
      [[("page_number", JVal.num 1), ("analyze_contents", JVal.str "t"),
        ("optimized_details", JVal.str "S"),
        ("is_important", JVal.boolean true), ("error", JVal.str "E")]] ∧
    jLookup
      ((analyzeTextMerge
          [[("page_number", JVal.num 1), ("analyze_contents", JVal.str "t"),
            ("optimized_details", JVal.null), ("is_important", JVal.null)]]
          1
          [("optimized_details", JVal.str "S"),
            ("is_important", JVal.boolean true),
            ("error", JVal.str "E")]).headD [])
      "error" = some (JVal.str "E") := by
  refine ⟨rfl, by decide, by decide⟩

/-- C3 amended: on a successful single-page analyze call,
`ResultsReview.analyzeContent` updates exactly `optimized_details` and
`is_important` of the matching records and leaves everything else
untouched; the `Index` variant `analyzeText` instead spreads the entire
response body into the matching record, so every response field is
merged (fields the response lacks are preserved); in both variants the
records of other pages are unchanged. -/
theorem C3_analyze_merge :
    (∀ (st : ReviewState) (n : Nat) (res : AnalysisResult),
      (analyzeContent st n (.success res)).pages.length = st.pages.length ∧
      ∀ (i : Nat) (hi : i < st.pages.length)
          (hi2 : i < (analyzeContent st n (.success res)).pages.length),
        (analyzeContent st n (.success res)).pages[i].page_number =
            st.pages[i].page_number ∧
        (analyzeContent st n (.success res)).pages[i].analyze_contents =
            st.pages[i].analyze_contents ∧
        (st.pages[i].page_number = n →
          (analyzeContent st n (.success res)).pages[i].optimized_details =
              some res.optimized_details ∧
          (analyzeContent st n (.success res)).pages[i].is_important =
              some res.is_important) ∧
        (st.pages[i].page_number ≠ n →
          (analyzeContent st n (.success res)).pages[i] = st.pages[i])) ∧
    (∀ (pages : List JsObj) (n : Int) (data : JsObj),
      (analyzeTextMerge pages n data).length = pages.length ∧
      ∀ (i : Nat) (hi : i < pages.length)
          (hi2 : i < (analyzeTextMerge pages n data).length),
        (jLookup pages[i] "page_number" ≠ some (.num n) →
          (analyzeTextMerge pages n data)[i] = pages[i]) ∧
        (jLookup pages[i] "page_number" = some (.num n) →
          (∀ (k : String) (v : JVal), jLookup data k = some v →
            jLookup (analyzeTextMerge pages n data)[i] k = some v) ∧
          (∀ k : String, jLookup data k = none →
            jLookup (analyzeTextMerge pages n data)[i] k =
              jLookup pages[i] k))) := by
  constructor
  · intro st n res
    refine ⟨by simp [analyzeContent], ?_⟩
    intro i hi hi2
    refine ⟨?_, ?_, ?_, ?_⟩
    · by_cases hp : st.pages[i].page_number = n <;>
        simp [analyzeContent, hp]
    · by_cases hp : st.pages[i].page_number = n <;>
        simp [analyzeContent, hp]
    · intro hp
      simp [analyzeContent, hp]
    · intro hp
      simp [analyzeContent, hp]
  · intro pages n data
    refine ⟨by simp [analyzeTextMerge], ?_⟩
    intro i hi hi2
    constructor
    · intro hp
      simp [analyzeTextMerge, hp]
    · intro hp
      constructor
      · intro k v hk
        simp only [analyzeTextMerge, List.getElem_map, hp, if_pos]
        exact jsSpread_lookup_of_mem _ _ _ _ hk
      · intro k hk
        simp only [analyzeTextMerge, List.getElem_map, hp, if_pos]
        exact jsSpread_lookup_of_none _ _ _ hk

/-- Witness for C3 at a concrete one-page state and response: the page
in position 0 matches the analyzed page number, and after a successful
call its `optimized_details` field holds the returned summary. -/
theorem C3_analyze_merge_witness :
    (([⟨1, "t", none, none⟩] : List PageData).get ⟨0, by decide⟩).page_number
        = 1 ∧
    ((analyzeContent ⟨[⟨1, "t", none, none⟩], [], none, ""⟩ 1
        (.success ⟨"S", true⟩)).pages.get
        ⟨0, by decide⟩).optimized_details = some "S" := by
  constructor
  · decide
  · have h :=
      ((C3_analyze_merge.1 ⟨[⟨1, "t", none, none⟩], [], none, ""⟩ 1
        ⟨"S", true⟩).2 0 (by decide) (by decide)).2.2.1 (by decide)
    simpa using h.1

theorem hasSubB_cons (pat : List Char) (c : Char) (t : List Char) :
    hasSubB pat (c :: t) = (pat.isPrefixOf (c :: t) || hasSubB pat t) := rfl

theorem isPrefixOf_append_left (p : List Char) :
    ∀ (l r : List Char), p.isPrefixOf (l ++ r) = true →
      p.length ≤ l.length → p.isPrefixOf l = true := by
  induction p with
  | nil =>
      intro l r _ _
      simp
  | cons a p ih =>
      intro l r h hlen
      cases l with
      | nil => simp at hlen
      | cons c l' =>
          rw [List.cons_append, List.isPrefixOf_cons₂, Bool.and_eq_true] at h
          rw [List.isPrefixOf_cons₂, Bool.and_eq_true]
          refine ⟨h.1, ih l' r h.2 ?_⟩
          simp only [List.length_cons] at hlen
          omega

theorem replaceFirst_strip :
    ∀ b : List Char, hasSubB pdfChars (b ++ pdChars) = false →
      replaceFirstDrop pdfChars (b ++ pdfChars) = b := by
  intro b
  induction b with
  | nil =>
      intro _
      decide
  | cons c b' ih =>
      intro h
      rw [List.cons_append, hasSubB_cons, Bool.or_eq_false_iff] at h
      have hp2 : pdfChars.isPrefixOf (c :: (b' ++ pdfChars)) = false := by
        by_contra hp
        have hp3 : pdfChars.isPrefixOf (c :: (b' ++ pdfChars)) = true := by
          simpa using hp
        have hsplit : c :: (b' ++ pdfChars) =
            (c :: (b' ++ pdChars)) ++ ['f'] := by
          simp [pdfChars, pdChars]
        rw [hsplit] at hp3
        have hpre := isPrefixOf_append_left pdfChars
          (c :: (b' ++ pdChars)) ['f'] hp3 (by simp [pdfChars, pdChars])
        rw [hpre] at h
        simp at h
      rw [List.cons_append, replaceFirstDrop, hp2, if_neg]
      · rw [ih h.2]
      · simp

/-- C7 counterexample: for the uploaded filename `a.pdfx.pdf` (which
passes the `.pdf` validation), the csv download is offered as
`ax.pdf.csv`, because `replace('.pdf', '')` removes the first occurrence
of `.pdf`, not the extension; the basename of the spec would give
`a.pdfx.csv`. -/
theorem C7_counterexample_replace_first :
    downloadName "a.pdfx.pdf" "csv" = "ax.pdf.csv" ∧
    specBasename "a.pdfx.pdf" ++ ".csv" = "a.pdfx.csv" ∧
    ("ax.pdf.csv" : String) ≠ "a.pdfx.csv" := by
  refine ⟨by decide, by decide, by decide⟩

/-- C7 amended: downloading csv issues a GET to the csv download path
(`/download/csv`, or `/api/download/csv` in the `Index` variant), and
the offered file is named from the original filename with the first
occurrence of the literal `.pdf` removed and `.csv` appended; this
equals `<basename>.csv` whenever the only occurrence of `.pdf` in the
filename is its final extension. -/
theorem C7_download_csv_name :
    (downloadRequestB "csv").method = "GET" ∧
    (downloadRequestB "csv").path = "/download/csv" ∧
    (downloadRequestA "csv").path = "/api/download/csv" ∧
    (∀ (filename : String) (ok : Bool),
      (downloadRun filename "csv" ok).1 = [downloadRequestB "csv"]) ∧
    (∀ b : List Char, hasSubB pdfChars (b ++ pdChars) = false →
      downloadName (String.mk (b ++ pdfChars)) "csv" =
        String.mk b ++ ".csv") := by
  refine ⟨rfl, rfl, rfl, fun _ _ => rfl, ?_⟩
  intro b hb
  show String.mk (replaceFirstDrop ".pdf".data (b ++ pdfChars)) ++ "." ++
      "csv" = String.mk b ++ ".csv"
  rw [show (".pdf".data : List Char) = pdfChars from rfl,
    replaceFirst_strip b hb]
  apply congrArg String.mk
  simp

/-- Witness for C7: the filename `doc.pdf` has no stray occurrence of
`.pdf`, and its csv download is offered as `doc.csv`. -/
theorem C7_download_csv_name_witness :
    hasSubB pdfChars (['d', 'o', 'c'] ++ pdChars) = false ∧
    downloadName (String.mk (['d', 'o', 'c'] ++ pdfChars)) "csv" =
      String.mk ['d', 'o', 'c'] ++ ".csv" :=
  ⟨by decide,
    C7_download_csv_name.2.2.2.2 ['d', 'o', 'c'] (by decide)⟩

/-- `handleFileSelect` never changes the stage. -/
theorem handleFileSelect_keeps_step (f : FileInfo) (s : IndexState) :
    (handleFileSelect f s).1.currentStep = s.currentStep := by
  unfold handleFileSelect
  split_ifs <;> rfl

/-- `uploadFile` either moves to the extract stage or keeps the stage. -/
theorem uploadFile_step (s : IndexState) (r : UploadRespA) :
    (uploadFile s r).1.currentStep = .extract ∨
      (uploadFile s r).1.currentStep = s.currentStep := by
  unfold uploadFile
  cases s.file with
  | none => exact Or.inr rfl
  | some f =>
      by_cases hc : (r.ok && r.success) = true
      · exact Or.inl (by simp [hc])
      · exact Or.inr (by simp [hc])

/-- `extractText` either moves to the review stage or keeps the stage. -/
theorem extractText_step (s : IndexState) (r : ExtractRespA) :
    (extractText s r).1.currentStep = .review ∨
      (extractText s r).1.currentStep = s.currentStep := by
  unfold extractText
  by_cases hc : (r.ok && r.success) = true
  · exact Or.inl (by simp [hc])
  · exact Or.inr (by simp [hc])

/-- `downloadResults` never changes the stage. -/
theorem downloadResultsA_keeps_step (s : IndexState) (fmt : String)
    (r : DownloadResp) :
    (downloadResultsA s fmt r).1.currentStep = s.currentStep := by
  unfold downloadResultsA
  split_ifs <;> rfl

theorem stepA_selectFile (s : IndexState) (f : FileInfo) :
    stepA s (.selectFile f) =
      if s.currentStep = .upload then (handleFileSelect f s).1 else s := rfl

theorem stepA_uploadClick (s : IndexState) (r : UploadRespA) :
    stepA s (.uploadClick r) =
      if s.currentStep = .upload then (uploadFile s r).1 else s := rfl

theorem stepA_extractClick (s : IndexState) (r : ExtractRespA) :
    stepA s (.extractClick r) =
      if s.currentStep = .extract then (extractText s r).1 else s := rfl

theorem stepA_downloadClick (s : IndexState) (fmt : String)
    (r : DownloadResp) :
    stepA s (.downloadClick fmt r) =
      if s.currentStep = .review then (downloadResultsA s fmt r).1 else s :=
  rfl

theorem stepA_resetClick (s : IndexState) :
    stepA s .resetClick =
      if s.currentStep = .review then resetProcess s else s := rfl

/-- C8: the stage of the `Index` controller only moves forward along
upload, extract, review — it never decreases except through the
start-over event, it never skips a stage, the start-over event is the
only way back to upload, and start-over (available in the review view)
clears the uploaded filename, the page collection and the selected
file; the variant B controller moves forward along upload, processing,
review and has no transition back to upload at all. -/
theorem C8_stage_forward_only :
    (∀ (s : BState) (e : EvB),
      ordB s.currentState ≤ ordB (stepB s e).currentState) ∧
    (∀ (s : BState) (e : EvB),
      (stepB s e).currentState = .upload → s.currentState = .upload) ∧
    (∀ (s : IndexState) (e : EvA),
      ordA s.currentStep ≤ ordA (stepA s e).currentStep ∨
        e = .resetClick) ∧
    (∀ (s : IndexState) (e : EvA),
      ordA (stepA s e).currentStep ≤ ordA s.currentStep + 1) ∧
    (∀ (s : IndexState) (e : EvA),
      (stepA s e).currentStep = .upload → s.currentStep ≠ .upload →
        e = .resetClick) ∧
    (∀ s : IndexState, s.currentStep = .review →
      (stepA s .resetClick).currentStep = .upload ∧
      (stepA s .resetClick).uploadedFilename = "" ∧
      (stepA s .resetClick).pagesData = [] ∧
      (stepA s .resetClick).file = none) := by
  refine ⟨?_, ?_, ?_, ?_, ?_, ?_⟩
  · intro s e
    cases e with
    | fileUploaded fn =>
        by_cases hs : s.currentState = .upload <;>
          simp [stepB, hs, ordB]
    | processingComplete data =>
        by_cases hs : s.currentState = .processing <;>
          simp [stepB, hs, ordB]
  · intro s e h
    cases e with
    | fileUploaded fn =>
        by_cases hs : s.currentState = .upload
        · exact hs
        · simp only [stepB, if_neg hs] at h
          exact h
    | processingComplete data =>
        by_cases hs : s.currentState = .processing
        · simp [stepB, hs] at h
        · simp only [stepB, if_neg hs] at h
          exact h
  · intro s e
    cases e with
    | selectFile f =>
        left
        rw [stepA_selectFile]
        split_ifs with hs
        · rw [handleFileSelect_keeps_step]
        · exact Nat.le_refl _
    | uploadClick r =>
        left
        rw [stepA_uploadClick]
        split_ifs with hs
        · rcases uploadFile_step s r with h | h <;>
            (rw [h]; try simp [hs, ordA])
        · exact Nat.le_refl _
    | extractClick r =>
        left
        rw [stepA_extractClick]
        split_ifs with hs
        · rcases extractText_step s r with h | h <;>
            (rw [h]; try simp [hs, ordA])
        · exact Nat.le_refl _
    | downloadClick fmt r =>
        left
        rw [stepA_downloadClick]
        split_ifs with hs
        · rw [downloadResultsA_keeps_step]
        · exact Nat.le_refl _
    | resetClick => exact Or.inr rfl
  · intro s e
    cases e with
    | selectFile f =>
        rw [stepA_selectFile]
        split_ifs with hs
        · rw [handleFileSelect_keeps_step]
          omega
        · omega
    | uploadClick r =>
        rw [stepA_uploadClick]
        split_ifs with hs
        · rcases uploadFile_step s r with h | h <;>
            (rw [h]; simp [hs, ordA])
        · omega
    | extractClick r =>
        rw [stepA_extractClick]
        split_ifs with hs
        · rcases extractText_step s r with h | h <;>
            (rw [h]; simp [hs, ordA])
        · omega
    | downloadClick fmt r =>
        rw [stepA_downloadClick]
        split_ifs with hs
        · rw [downloadResultsA_keeps_step]
          omega
        · omega
    | resetClick =>
        rw [stepA_resetClick]
        split_ifs with hs <;> simp [resetProcess, ordA]
  · intro s e hup hne
    cases e with
    | selectFile f =>
        exfalso
        apply hne
        rw [stepA_selectFile] at hup
        split_ifs at hup with hs
        · rw [handleFileSelect_keeps_step] at hup
          exact hup
        · exact hup
    | uploadClick r =>
        exfalso
        rw [stepA_uploadClick] at hup
        split_ifs at hup with hs
        · exact hne hs
        · exact hne hup
    | extractClick r =>
        exfalso
        rw [stepA_extractClick] at hup
        split_ifs at hup with hs
        · rcases extractText_step s r with h | h <;> rw [h] at hup
          · exact StepA.noConfusion hup
          · rw [hs] at hup
            exact StepA.noConfusion hup
        · exact hne hup
    | downloadClick fmt r =>
        exfalso
        apply hne
        rw [stepA_downloadClick] at hup
        split_ifs at hup with hs
        · rw [downloadResultsA_keeps_step] at hup
          exact hup
        · exact hup
    | resetClick => rfl
  · intro s hs
    refine ⟨?_, ?_, ?_, ?_⟩ <;> simp [stepA_resetClick, hs, resetProcess]

/-- Witness for C8: from a concrete review-stage state, start-over
returns to upload and clears the filename and the pages. -/
theorem C8_stage_forward_only_witness :
    ((⟨none, false, false, false, "doc.pdf",
        [[("page_number", JVal.num 1)]], "", .review⟩ :
        IndexState).currentStep = .review) ∧
    ((stepA
        ⟨none, false, false, false, "doc.pdf",
          [[("page_number", JVal.num 1)]], "", .review⟩
        .resetClick).currentStep = .upload ∧
      (stepA
        ⟨none, false, false, false, "doc.pdf",
          [[("page_number", JVal.num 1)]], "", .review⟩
        .resetClick).uploadedFilename = "" ∧
      (stepA
        ⟨none, false, false, false, "doc.pdf",
          [[("page_number", JVal.num 1)]], "", .review⟩
        .resetClick).pagesData = [] ∧
      (stepA
        ⟨none, false, false, false, "doc.pdf",
          [[("page_number", JVal.num 1)]], "", .review⟩
        .resetClick).file = none) :=
  ⟨rfl,
    C8_stage_forward_only.2.2.2.2.2
      ⟨none, false, false, false, "doc.pdf",
        [[("page_number", JVal.num 1)]], "", .review⟩ rfl⟩

end ThaiDocInsight

